import Mathlib

/-!
Verification development for the GST reconciliation backend.

The embedding covers, from the repository's source:
* `gst_reports/services/gstr2b_manual_reco_service.py`
  (class `GSTR2BManualReconciliationService`): `preprocess_data` (the
  `Type` column normalisation), `get_target_periods`, `run_reconciliation`
  (service variant, prefix `svc_`);
* `reconciliation/views.py`: `get_target_periods` (views variant),
  `values_match_within_tolerance`, `run_reconciliation` (views variant,
  prefix `views_`);
* `gst_recon/recon_engine/matcher.py`: `aggregate_summary`,
  `summary_deltas` and the `is_reconciled` flag of `reconcile_records`.

Modelling conventions, stated once:
* Python floats are modelled as exact rationals.  Records are modelled
  after preprocessing (`pd.to_numeric(...).fillna(0)` makes every numeric
  field a total number; `pd.to_datetime(..., errors="coerce")` makes the
  date an optional (year, month) pair, `none` standing for NaT).
* Pandas dataframes are lists of records in row order.  The outer merge
  of `pd.merge(..., on=[GSTIN_Clean, Invoice_Clean], how="outer")` is
  embedded by its three disjoint row groups: the both-sides rows (for
  each left row in order, every key-equal right row in order — the merge
  emits the full product on duplicated keys), the left-only rows and the
  right-only rows, which is exactly how `run_reconciliation` splits the
  merged frame (`Taxable_books.isna()` / `Taxable_2b.isna()` in the
  service, the `_merge` indicator in the views).
* Presentation-only columns (Supplier, the raw uncleaned GSTIN/Invoice
  strings, the row `Type` tag) and the presentation-only post-processing
  of the views variant (`format_df`, which only sorts each bucket, and
  `clean_nans`, which only rewrites NaN/Inf display values) do not affect
  which records land in which bucket and are not part of the embedding.
-/

/-! ## String helpers (kernel-reducible stand-ins for Python str methods) -/

/-- Check that the first list is an initial segment of the second
(stand-in for a prefix test on strings, used by substring search). -/
def listStartsWith : List Char → List Char → Bool
  | [], _ => true
  | _ :: _, [] => false
  | a :: as, b :: bs => a == b && listStartsWith as bs

/-- Check that `needle` occurs contiguously inside `hay`: the substring
containment test of `pandas.Series.str.contains` with a literal
alternation pattern. -/
def containsSeq (needle : List Char) : List Char → Bool
  | [] => needle.isEmpty
  | c :: rest => listStartsWith needle (c :: rest) || containsSeq needle rest

/-- Uppercase a string character by character: Python `str.upper` on the
ASCII column values the service handles. -/
def upperStr (s : String) : String :=
  String.mk (s.data.map Char.toUpper)

/-- Strip leading and trailing whitespace: Python `str.strip`. -/
def trimStr (s : String) : String :=
  String.mk (((s.data.dropWhile Char.isWhitespace).reverse.dropWhile Char.isWhitespace).reverse)

/-- Split a string at every `-`, keeping empty pieces: Python
`str.split("-")`. -/
def splitDashAux : List Char → List Char → List String
  | [], acc => [String.mk acc.reverse]
  | c :: cs, acc =>
    if c == '-' then String.mk acc.reverse :: splitDashAux cs []
    else splitDashAux cs (c :: acc)

/-- Python `s.split("-")`. -/
def splitDash (s : String) : List String :=
  splitDashAux s.data []

/-- Parse a decimal digit run. `none` when empty or a non-digit appears:
Python `int(...)` raising `ValueError`. -/
def digitsToNat : List Char → Option Nat
  | [] => none
  | cs => go cs 0
where go : List Char → Nat → Option Nat
  | [], acc => some acc
  | c :: cs, acc => if c.isDigit then go cs (acc * 10 + (c.toNat - 48)) else none

/-- Python `int(s)` for an optionally signed decimal string (the
whitespace tolerance of Python `int` is not exercised by the inputs the
claims are about). -/
def parseIntOpt (s : String) : Option Int :=
  match s.data with
  | '-' :: cs => (digitsToNat cs).map (fun n => -(n : Int))
  | '+' :: cs => (digitsToNat cs).map (fun n => (n : Int))
  | cs => (digitsToNat cs).map (fun n => (n : Int))

/-! ## Type-column preprocessing (`preprocess_data`, service, lines 62-68) -/

/-- Check for the credit/debit-note pattern
`(CDNR|CREDIT|CR\.|DEBIT|DR\.|NOTE)` of `preprocess_data`: a literal
alternation, so containment of any of the six strings. -/
def containsCdnrPattern (s : String) : Bool :=
  containsSeq "CDNR".data s.data || containsSeq "CREDIT".data s.data ||
  containsSeq "CR.".data s.data || containsSeq "DEBIT".data s.data ||
  containsSeq "DR.".data s.data || containsSeq "NOTE".data s.data

/-- Per-value effect of the `Type` normalisation of `preprocess_data`:
strip and uppercase, rewrite pattern hits to `"CDNR"`, rewrite everything
that is not `"CDNR"` to `"B2B"`. -/
def normalizeTypeValue (s : String) : String :=
  let u := upperStr (trimStr s)
  if containsCdnrPattern u then "CDNR" else "B2B"

/-- Effect of `preprocess_data` on one row's `Type` cell, `none` standing
for a missing `Type` column (the service then writes `"B2B"` into every
row before normalising). -/
def preprocessType (t : Option String) : String :=
  normalizeTypeValue (t.getD "B2B")

/-- Column-level view: `preprocess_data` maps the whole `Type` column. -/
def preprocessTypeColumn (col : List (Option String)) : List String :=
  col.map preprocessType

/-! ## Period derivation (`get_target_periods`) -/

/-- Month-name lookup of the service `month_map` dictionary. -/
def monthMap (s : String) : Option Int :=
  if s = "April" then some 4 else if s = "May" then some 5
  else if s = "June" then some 6 else if s = "July" then some 7
  else if s = "August" then some 8 else if s = "September" then some 9
  else if s = "October" then some 10 else if s = "November" then some 11
  else if s = "December" then some 12 else if s = "January" then some 1
  else if s = "February" then some 2 else if s = "March" then some 3
  else none

/-- Quarter lookup of the service `q_map` dictionary. -/
def qMap (s : String) : Option (List Int) :=
  if s = "Q1 (Apr-Jun)" then some [4, 5, 6]
  else if s = "Q2 (Jul-Sep)" then some [7, 8, 9]
  else if s = "Q3 (Oct-Dec)" then some [10, 11, 12]
  else if s = "Q4 (Jan-Mar)" then some [1, 2, 3]
  else none

/-- Fiscal-year start parse of the service `get_target_periods`:
`int(selected_fy.split("-")[0])` defaulted to 2024 by the bare
`except`. -/
def parseStartYear (selected_fy : String) : Int :=
  (parseIntOpt ((splitDash selected_fy).headD "")).getD 2024

/-- Service `GSTR2BManualReconciliationService.get_target_periods`: the
list of (year, month) pairs for the selected period (the returned
`period_label` is presentation-only and omitted).  `month_map.get(v, 4)`
and `q_map.get(v, [4,5,6])` supply defaults; any `period_type` other
than `"Monthly"` and `"Quarterly"` falls to the yearly branch. -/
def get_target_periods (selected_fy period_type selected_period_val : String) :
    List (Int × Int) :=
  let start_year := parseStartYear selected_fy
  if period_type = "Monthly" then
    let m := (monthMap selected_period_val).getD 4
    [(if 4 ≤ m then start_year else start_year + 1, m)]
  else if period_type = "Quarterly" then
    let ms := (qMap selected_period_val).getD [4, 5, 6]
    ms.map (fun m => (if 4 ≤ m then start_year else start_year + 1, m))
  else
    (([4, 5, 6, 7, 8, 9, 10, 11, 12] : List Int).map (fun m => (start_year, m))) ++
      (([1, 2, 3] : List Int).map (fun m => (start_year + 1, m)))

/-- Views `get_target_periods` (reconciliation/views.py): returns
(month, year) pairs — note the swapped tuple order of the source — and,
unlike the service variant, parses both fiscal years without a default
(`none` models the uncaught ValueError/KeyError) and leaves the period
list empty for an unrecognised quarter label. -/
def views_get_target_periods (fy_string period_type selected_period : String) :
    Option (List (Int × Int)) :=
  match splitDash fy_string with
  | s0 :: s1 :: _ =>
    match parseIntOpt s0, parseIntOpt s1 with
    | some start_year, some end_year =>
      if period_type = "Monthly" then
        match monthMap selected_period with
        | some m => some [(m, if 4 ≤ m then start_year else end_year)]
        | none => none
      else
        if selected_period = "Q1 (Apr-Jun)" then
          some [(4, start_year), (5, start_year), (6, start_year)]
        else if selected_period = "Q2 (Jul-Sep)" then
          some [(7, start_year), (8, start_year), (9, start_year)]
        else if selected_period = "Q3 (Oct-Dec)" then
          some [(10, start_year), (11, start_year), (12, start_year)]
        else if selected_period = "Q4 (Jan-Mar)" then
          some [(1, end_year), (2, end_year), (3, end_year)]
        else some []
    | _, _ => none
  | _ => none

example : get_target_periods "2024-2025" "Quarterly" "Q1 (Apr-Jun)" =
    [(2024, 4), (2024, 5), (2024, 6)] := by decide

example : get_target_periods "2024-2025" "Quarterly" "Q4 (Jan-Mar)" =
    [(2025, 1), (2025, 2), (2025, 3)] := by decide

example : get_target_periods "garbage" "Monthly" "April" = [(2024, 4)] := by decide

example : get_target_periods "2024-2025" "Yearly" "x" =
    [(2024, 4), (2024, 5), (2024, 6), (2024, 7), (2024, 8), (2024, 9), (2024, 10),
     (2024, 11), (2024, 12), (2025, 1), (2025, 2), (2025, 3)] := by decide

example : views_get_target_periods "2024-2025" "Quarterly" "Q1 (Apr-Jun)" =
    some [(4, 2024), (5, 2024), (6, 2024)] := by decide

example : preprocessType (some " credit note ") = "CDNR" := by decide

example : preprocessType none = "B2B" := by decide

example : preprocessType (some "b2b") = "B2B" := by decide

/-! ## Records, rows and buckets -/

/-- Preprocessed upload row, the unit `run_reconciliation` operates on.
`gstinClean`/`invClean` are the merge keys `GSTIN_Clean`/`Invoice_Clean`
(already trimmed and uppercased by `preprocess_data`); `date` is the
coerced `Date` cell as a (year, month) pair, `none` for NaT; the numeric
cells are total after `fillna(0)`.  The `views.py` variant has no `Cess`
column; its functions simply never read `cess`. -/
structure Rec where
  gstinClean : String
  invClean : String
  date : Option (Int × Int)
  gross : ℚ
  taxable : ℚ
  igst : ℚ
  cgst : ℚ
  sgst : ℚ
  cess : ℚ
deriving DecidableEq

/-- Composite merge key `(GSTIN_Clean, Invoice_Clean)`. -/
def recKey (r : Rec) : String × String :=
  (r.gstinClean, r.invClean)

/-- Key equality used by the outer merge. -/
def sameKey (a b : Rec) : Bool :=
  recKey a == recKey b

/-- One output row of a result bucket, keeping the records it was built
from: a both-sides row, a 2B-only row or a Books-only row. -/
inductive Row where
  | pair (left right : Rec)
  | leftOnly (left : Rec)
  | rightOnly (right : Rec)
deriving DecidableEq

/-- The six result buckets `run_reconciliation` returns (both variants
return the same dictionary keys). -/
structure Buckets where
  matched : List Row
  mismatch_probable : List Row
  invoice_mismatch : List Row
  only_2b : List Row
  only_books : List Row
  out_of_period : List Row
deriving DecidableEq

/-- Left (GSTR-2B side) record of a row, when the row carries one. -/
def rowLeft : Row → Option Rec
  | .pair a _ => some a
  | .leftOnly a => some a
  | .rightOnly _ => none

/-- Right (Books side) record of a row, when the row carries one. -/
def rowRight : Row → Option Rec
  | .pair _ b => some b
  | .leftOnly _ => none
  | .rightOnly b => some b

/-- All rows of all six buckets, in bucket order. -/
def allRows (B : Buckets) : List Row :=
  B.matched ++ B.mismatch_probable ++ B.invoice_mismatch ++
    B.only_2b ++ B.only_books ++ B.out_of_period

/-- The multiset of 2B-side input records represented across the
buckets, as a list. -/
def bucketLefts (B : Buckets) : List Rec :=
  (allRows B).filterMap rowLeft

/-- The multiset of Books-side input records represented across the
buckets, as a list. -/
def bucketRights (B : Buckets) : List Rec :=
  (allRows B).filterMap rowRight

/-! ## The exact-key stage (the outer merge) -/

/-- Both-sides rows of the outer merge on `(GSTIN_Clean, Invoice_Clean)`:
for each left row in order, every key-equal right row in order.  On
duplicated keys this is the full product — exactly what `pd.merge`
emits. -/
def cross_pairs (l r : List Rec) : List (Rec × Rec) :=
  l.flatMap (fun a => (r.filter (fun b => sameKey a b)).map (fun b => (a, b)))

/-- Left-only rows of the outer merge (`Taxable_books.isna()` in the
service, `_merge == "left_only"` in the views): left rows whose key has
no right occurrence. -/
def leftover_left (l r : List Rec) : List Rec :=
  l.filter (fun a => !(r.any (fun b => sameKey a b)))

/-- Right-only rows of the outer merge. -/
def leftover_right (l r : List Rec) : List Rec :=
  r.filter (fun b => !(l.any (fun a => sameKey a b)))

/-! ## Tolerance tests -/

/-- Service `values_match` helper (and the inline `abs(x - y) <= tolerance`
comparisons of the exact-match loop): non-strict tolerance test. -/
def values_match (v1 v2 tol : ℚ) : Bool :=
  decide (|v1 - v2| ≤ tol)

/-- Views helper `values_match_within_tolerance` — the same non-strict
test. -/
def values_match_within_tolerance (val1 val2 tolerance : ℚ) : Bool :=
  decide (|val1 - val2| ≤ tolerance)

/-- Service exact-match value check (`is_val_match`, service lines
149-152): Taxable and IGST only. -/
def svc_val_match (tol : ℚ) (p : Rec × Rec) : Bool :=
  values_match p.1.taxable p.2.taxable tol && values_match p.1.igst p.2.igst tol

/-- Views exact-match value check (views lines 156-162): every column of
`NUMERIC_COLUMNS = [Gross Amt, Taxable, IGST, SGST, CGST]`, in that
order (the early `break` makes it a plain conjunction). -/
def views_val_match (tol : ℚ) (p : Rec × Rec) : Bool :=
  values_match_within_tolerance p.1.gross p.2.gross tol &&
  values_match_within_tolerance p.1.taxable p.2.taxable tol &&
  values_match_within_tolerance p.1.igst p.2.igst tol &&
  values_match_within_tolerance p.1.sgst p.2.sgst tol &&
  values_match_within_tolerance p.1.cgst p.2.cgst tol

/-- Service fuzzy candidate test (service lines 203-208): the scan is
restricted to rows with the same `GSTIN_Clean` and accepts when Taxable
and IGST are within tolerance.  Fusing the GSTIN filter into the
condition leaves the scan order and the accepted row unchanged. -/
def svc_fuzzy_test (tol : ℚ) (a b : Rec) : Bool :=
  a.gstinClean == b.gstinClean &&
  values_match a.taxable b.taxable tol && values_match a.igst b.igst tol

/-- Views fuzzy candidate test (views lines 216-228): same GSTIN and
Taxable, IGST, CGST, SGST within tolerance. -/
def views_fuzzy_test (tol : ℚ) (a b : Rec) : Bool :=
  a.gstinClean == b.gstinClean &&
  values_match_within_tolerance a.taxable b.taxable tol &&
  values_match_within_tolerance a.igst b.igst tol &&
  values_match_within_tolerance a.cgst b.cgst tol &&
  values_match_within_tolerance a.sgst b.sgst tol

/-! ## The greedy fuzzy stage -/

/-- Scan of the inner fuzzy loop: the first still-unclaimed right row
accepted by `test`, together with the remaining right rows (the claimed
row is removed from further consideration — discarded from
`unmatched_books_indices`). -/
def find_first (test : Rec → Rec → Bool) (a : Rec) : List Rec → Option (Rec × List Rec)
  | [] => none
  | b :: bs =>
    if test a b then some (b, bs)
    else
      match find_first test a bs with
      | some (c, rest) => some (c, b :: rest)
      | none => none

/-- The greedy first-fit fuzzy loop (both variants, service lines
202-240, views lines 215-261): iterate left leftovers in order; pair
each with the first unclaimed accepted right row; a left row with no
accepted right row stays unmatched.  Returns (pairs in formation order,
unmatched left rows in order, remaining right rows in order). -/
def greedy_fuzzy (test : Rec → Rec → Bool) :
    List Rec → List Rec → List (Rec × Rec) × List Rec × List Rec
  | [], r => ([], [], r)
  | a :: l, r =>
    match find_first test a r with
    | some (b, r') =>
      let (ps, lo, rr) := greedy_fuzzy test l r'
      ((a, b) :: ps, lo, rr)
    | none =>
      let (ps, lo, rr) := greedy_fuzzy test l r
      (ps, a :: lo, rr)

/-! ## Period membership -/

/-- Service `in_period` (lines 109-111): null dates are out of period,
otherwise membership of `(dt.year, dt.month)` in the target list. -/
def svc_in_period (target_dates : List (Int × Int)) (d : Option (Int × Int)) : Bool :=
  match d with
  | none => false
  | some ym => target_dates.contains ym

/-- Views `is_in_period` (lines 98-102): same check with the source's
swapped `(d.month, d.year)` tuples. -/
def views_in_period (target_dates : List (Int × Int)) (d : Option (Int × Int)) : Bool :=
  match d with
  | none => false
  | some (y, m) => target_dates.contains (m, y)

/-! ## Service `run_reconciliation` -/

/-- In-period 2B rows (`df_2b_period`). -/
def svc_in_2b (df_2b : List Rec) (target_dates : List (Int × Int)) : List Rec :=
  df_2b.filter (fun x => svc_in_period target_dates x.date)

/-- In-period Books rows (`df_books_period`). -/
def svc_in_books (df_books : List Rec) (target_dates : List (Int × Int)) : List Rec :=
  df_books.filter (fun x => svc_in_period target_dates x.date)

/-- Both-sides rows of the service merge. -/
def svc_exact_pairs (df_2b df_books : List Rec) (target_dates : List (Int × Int)) :
    List (Rec × Rec) :=
  cross_pairs (svc_in_2b df_2b target_dates) (svc_in_books df_books target_dates)

/-- Fuzzy stage of the service variant, run on the merge leftovers. -/
def svc_fuzzy (df_2b df_books : List Rec) (target_dates : List (Int × Int)) (tol : ℚ) :
    List (Rec × Rec) × List Rec × List Rec :=
  greedy_fuzzy (svc_fuzzy_test tol)
    (leftover_left (svc_in_2b df_2b target_dates) (svc_in_books df_books target_dates))
    (leftover_right (svc_in_2b df_2b target_dates) (svc_in_books df_books target_dates))

/-- Emitted pairs of the service fuzzy stage. -/
def svc_fuzzy_pairs (df_2b df_books : List Rec) (target_dates : List (Int × Int))
    (tol : ℚ) : List (Rec × Rec) :=
  (svc_fuzzy df_2b df_books target_dates tol).1

/-- Service `run_reconciliation` (gstr2b_manual_reco_service.py lines
108-282).  Bucket by bucket: exact pairs split on `is_val_match`
(Taxable, IGST); fuzzy pairs split on the gross-amount test into
`invoice_mismatch` / appended to `mismatch_probable`; unmatched
leftovers become `only_2b` / `only_books`; and `out_of_period` is
`df_books[~mask_books_in]` — Books rows only.  The 2B rows failing the
period mask are in no bucket (`df_2b[~mask_2b_in]` is never used). -/
def svc_recon (df_2b df_books : List Rec) (target_dates : List (Int × Int))
    (tol : ℚ) : Buckets :=
  let pairs := svc_exact_pairs df_2b df_books target_dates
  let fz := svc_fuzzy df_2b df_books target_dates tol
  { matched := (pairs.filter (svc_val_match tol)).map (fun p => Row.pair p.1 p.2)
    mismatch_probable :=
      ((pairs.filter (fun p => !svc_val_match tol p)).map (fun p => Row.pair p.1 p.2)) ++
        ((fz.1.filter (fun p => !values_match p.1.gross p.2.gross tol)).map
          (fun p => Row.pair p.1 p.2))
    invoice_mismatch :=
      (fz.1.filter (fun p => values_match p.1.gross p.2.gross tol)).map
        (fun p => Row.pair p.1 p.2)
    only_2b := fz.2.1.map Row.leftOnly
    only_books := fz.2.2.map Row.rightOnly
    out_of_period :=
      (df_books.filter (fun x => !svc_in_period target_dates x.date)).map Row.rightOnly }

/-! ## Views `run_reconciliation` -/

/-- In-period 2B rows (`df_2b_current`). -/
def views_in_2b (df_2b : List Rec) (target_dates : List (Int × Int)) : List Rec :=
  df_2b.filter (fun x => views_in_period target_dates x.date)

/-- In-period Books rows (`df_books_current`). -/
def views_in_books (df_books : List Rec) (target_dates : List (Int × Int)) : List Rec :=
  df_books.filter (fun x => views_in_period target_dates x.date)

/-- Both-sides rows of the views merge. -/
def views_exact_pairs (df_2b df_books : List Rec) (target_dates : List (Int × Int)) :
    List (Rec × Rec) :=
  cross_pairs (views_in_2b df_2b target_dates) (views_in_books df_books target_dates)

/-- Fuzzy stage of the views variant. -/
def views_fuzzy (df_2b df_books : List Rec) (target_dates : List (Int × Int)) (tol : ℚ) :
    List (Rec × Rec) × List Rec × List Rec :=
  greedy_fuzzy (views_fuzzy_test tol)
    (leftover_left (views_in_2b df_2b target_dates) (views_in_books df_books target_dates))
    (leftover_right (views_in_2b df_2b target_dates) (views_in_books df_books target_dates))

/-- Emitted pairs of the views fuzzy stage. -/
def views_fuzzy_pairs (df_2b df_books : List Rec) (target_dates : List (Int × Int))
    (tol : ℚ) : List (Rec × Rec) :=
  (views_fuzzy df_2b df_books target_dates tol).1

/-- Views `run_reconciliation` (reconciliation/views.py lines 97-374).
Differences from the service variant: the value check covers all five
numeric columns, the fuzzy test covers four, and `out_of_period` is
`concat([df_books_out, df_2b_out])` — both sides are kept.  The final
`format_df`/`clean_nans` steps only reorder rows and rewrite NaN/Inf
display values, so they are omitted (bucket membership is unchanged). -/
def views_recon (df_2b df_books : List Rec) (target_dates : List (Int × Int))
    (tol : ℚ) : Buckets :=
  let pairs := views_exact_pairs df_2b df_books target_dates
  let fz := views_fuzzy df_2b df_books target_dates tol
  { matched := (pairs.filter (views_val_match tol)).map (fun p => Row.pair p.1 p.2)
    mismatch_probable :=
      ((pairs.filter (fun p => !views_val_match tol p)).map (fun p => Row.pair p.1 p.2)) ++
        ((fz.1.filter
            (fun p => !values_match_within_tolerance p.1.gross p.2.gross tol)).map
          (fun p => Row.pair p.1 p.2))
    invoice_mismatch :=
      (fz.1.filter (fun p => values_match_within_tolerance p.1.gross p.2.gross tol)).map
        (fun p => Row.pair p.1 p.2)
    only_2b := fz.2.1.map Row.leftOnly
    only_books := fz.2.2.map Row.rightOnly
    out_of_period :=
      ((df_books.filter (fun x => !views_in_period target_dates x.date)).map Row.rightOnly) ++
        ((df_2b.filter (fun x => !views_in_period target_dates x.date)).map Row.leftOnly) }

/-! ## Summary matcher (`gst_recon/recon_engine/matcher.py`) -/

/-- Summary totals of `aggregate_summary`, one number per tax head. -/
structure GSummary where
  total_taxable : ℚ
  igst : ℚ
  cgst : ℚ
  sgst : ℚ
deriving DecidableEq

/-- Invoice row of the summary matcher (fields default to 0 upstream). -/
structure GRow where
  taxable_value : ℚ
  igst : ℚ
  cgst : ℚ
  sgst : ℚ
deriving DecidableEq

/-- Python `aggregate_summary(rows)`: componentwise sums. -/
def aggregate_summary (rows : List GRow) : GSummary :=
  { total_taxable := (rows.map GRow.taxable_value).sum
    igst := (rows.map GRow.igst).sum
    cgst := (rows.map GRow.cgst).sum
    sgst := (rows.map GRow.sgst).sum }

/-- Round half to even (Python `round` tie behaviour on exact values;
binary-float representation artifacts are outside the rational model). -/
def roundHalfEven (x : ℚ) : Int :=
  let f := ⌊x⌋
  let frac := x - (f : ℚ)
  if frac < 1 / 2 then f
  else if 1 / 2 < frac then f + 1
  else if f % 2 = 0 then f else f + 1

/-- Python `round(x, 2)`. -/
def round2 (x : ℚ) : ℚ :=
  (roundHalfEven (x * 100) : ℚ) / 100

/-- The four entries of the `summary_deltas` dict of `reconcile_records`
(lines 56-61), in insertion order. -/
def summary_deltas (s1 s3 : GSummary) : List ℚ :=
  [round2 (s1.total_taxable - s3.total_taxable), round2 (s1.igst - s3.igst),
   round2 (s1.cgst - s3.cgst), round2 (s1.sgst - s3.sgst)]

/-- The `is_reconciled` flag of `reconcile_records` (line 64):
`all(abs(v) < 1 for v in summary_deltas.values())` — a strict bound
hard-coded at 1. -/
def is_reconciled (s1 s3 : GSummary) : Bool :=
  (summary_deltas s1 s3).all (fun v => decide (|v| < 1))

/-! ## Concrete records for witnesses and counterexamples -/

/-- In-period 2B row, key (G1, I1). -/
def rA : Rec :=
  { gstinClean := "G1", invClean := "I1", date := some (2024, 4),
    gross := 1180, taxable := 1000, igst := 180, cgst := 0, sgst := 0, cess := 0 }

/-- In-period Books row with the same key and Taxable/IGST as `rA` but a
CGST cell off by 1000. -/
def rB : Rec :=
  { gstinClean := "G1", invClean := "I1", date := some (2024, 4),
    gross := 1180, taxable := 1000, igst := 180, cgst := 1000, sgst := 0, cess := 0 }

/-- In-period 2B row, key (G1, I2), no Books row with its key. -/
def rC : Rec :=
  { gstinClean := "G1", invClean := "I2", date := some (2024, 4),
    gross := 1180, taxable := 1000, igst := 180, cgst := 0, sgst := 0, cess := 0 }

/-- In-period Books row, key (G1, I3): same GSTIN and Taxable/IGST as
`rC`, CGST off by 1000, equal gross. -/
def rD : Rec :=
  { gstinClean := "G1", invClean := "I3", date := some (2024, 4),
    gross := 1180, taxable := 1000, igst := 180, cgst := 1000, sgst := 0, cess := 0 }

/-- Out-of-period 2B row (January 2023). -/
def rE : Rec :=
  { gstinClean := "G2", invClean := "I9", date := some (2023, 1),
    gross := 500, taxable := 500, igst := 0, cgst := 0, sgst := 0, cess := 0 }

/-- Books row matching `rA` exactly on every cell and the key. -/
def rB' : Rec :=
  { gstinClean := "G1", invClean := "I1", date := some (2024, 4),
    gross := 1180, taxable := 1000, igst := 180, cgst := 0, sgst := 0, cess := 0 }

example : (svc_recon [rE] [] [(2024, 4)] 1) =
    { matched := [], mismatch_probable := [], invoice_mismatch := [],
      only_2b := [], only_books := [], out_of_period := [] } := by decide

example : Row.pair rA rB ∈ (svc_recon [rA] [rB] [(2024, 4)] 1).matched := by
  norm_num [svc_recon, svc_exact_pairs, svc_in_2b, svc_in_books, cross_pairs, sameKey,
    recKey, svc_in_period, svc_val_match, values_match, svc_fuzzy, leftover_left,
    leftover_right, greedy_fuzzy, find_first, svc_fuzzy_test, List.filter_cons, abs_le,
    rA, rB]

example : (rC, rD) ∈ svc_fuzzy_pairs [rC] [rD] [(2024, 4)] 1 := by
  norm_num [svc_fuzzy_pairs, svc_fuzzy, svc_in_2b, svc_in_books, leftover_left,
    leftover_right, greedy_fuzzy, find_first, svc_fuzzy_test, values_match, sameKey,
    recKey, svc_in_period, List.filter_cons, abs_le, rC, rD]

/-! ## Lemmas about the exact-key stage -/

theorem sameKey_iff (a b : Rec) : sameKey a b = true ↔ recKey a = recKey b := by
  simp [sameKey]

theorem mem_cross_pairs {l r : List Rec} {p : Rec × Rec} :
    p ∈ cross_pairs l r ↔ p.1 ∈ l ∧ p.2 ∈ r ∧ sameKey p.1 p.2 = true := by
  cases p with
  | mk a b =>
    simp only [cross_pairs, List.mem_flatMap, List.mem_map, List.mem_filter]
    constructor
    · rintro ⟨x, hx, c, ⟨hc, hk⟩, he⟩
      obtain ⟨rfl, rfl⟩ := Prod.mk.injEq .. ▸ he
      exact ⟨hx, hc, hk⟩
    · rintro ⟨ha, hb, hk⟩
      exact ⟨a, ha, b, ⟨hb, hk⟩, rfl⟩

theorem cross_pairs_cons (a : Rec) (l r : List Rec) :
    cross_pairs (a :: l) r =
      ((r.filter (fun b => sameKey a b)).map (fun b => (a, b))) ++ cross_pairs l r := by
  simp [cross_pairs]

theorem filter_sameKey_of_nodup {r : List Rec} (hr : (r.map recKey).Nodup) (a : Rec) :
    r.filter (fun b => sameKey a b) = [] ∨
      ∃ b, r.filter (fun b => sameKey a b) = [b] := by
  induction r with
  | nil => exact Or.inl rfl
  | cons c t ih =>
    simp only [List.map_cons, List.nodup_cons] at hr
    obtain ⟨hc, ht⟩ := hr
    rw [List.filter_cons]
    by_cases h : sameKey a c = true
    · have hnil : t.filter (fun b => sameKey a b) = [] := by
        rw [List.filter_eq_nil_iff]
        intro b hb hk
        have h1 : recKey a = recKey c := (sameKey_iff a c).mp h
        have h2 : recKey a = recKey b := (sameKey_iff a b).mp hk
        exact hc (h1 ▸ h2 ▸ List.mem_map_of_mem recKey hb)
      right
      exact ⟨c, by simp [h, hnil]⟩
    · simpa [h] using ih ht

theorem any_sameKey_iff (a : Rec) (r : List Rec) :
    r.any (fun b => sameKey a b) = true ↔
      r.filter (fun b => sameKey a b) ≠ [] := by
  simp [List.any_eq_true, List.filter_eq_nil_iff]

theorem leftover_left_cons (a : Rec) (l r : List Rec) :
    leftover_left (a :: l) r =
      if r.any (fun b => sameKey a b) then leftover_left l r
      else a :: leftover_left l r := by
  by_cases h : r.any (fun b => sameKey a b) = true <;>
    simp [leftover_left, List.filter_cons, h]

theorem cross_left_perm {r : List Rec} (l : List Rec) (hr : (r.map recKey).Nodup) :
    ((cross_pairs l r).map Prod.fst ++ leftover_left l r).Perm l := by
  induction l with
  | nil => simp [cross_pairs, leftover_left]
  | cons a t ih =>
    rw [cross_pairs_cons, leftover_left_cons]
    by_cases h : r.any (fun b => sameKey a b) = true
    · obtain hnil | ⟨b, hb⟩ := filter_sameKey_of_nodup hr a
      · exact absurd hnil ((any_sameKey_iff a r).mp h)
      · rw [if_pos h, hb]
        simpa using List.Perm.cons a ih
    · have hnil : r.filter (fun b => sameKey a b) = [] := by
        by_contra hne
        exact h ((any_sameKey_iff a r).mpr hne)
      rw [if_neg h, hnil]
      simpa using List.perm_middle.trans (List.Perm.cons a ih)

theorem cross_pairs_congr {l r r' : List Rec}
    (h : ∀ x ∈ l, r.filter (fun b => sameKey x b) = r'.filter (fun b => sameKey x b)) :
    cross_pairs l r = cross_pairs l r' := by
  induction l with
  | nil => rfl
  | cons a t ih =>
    rw [cross_pairs_cons, cross_pairs_cons, h a (List.mem_cons_self a t),
      ih (fun x hx => h x (List.mem_cons_of_mem a hx))]

theorem cross_right_perm {l : List Rec} (r : List Rec) (hl : (l.map recKey).Nodup) :
    ((cross_pairs l r).map Prod.snd ++ leftover_right l r).Perm r := by
  induction l generalizing r with
  | nil =>
    simp [cross_pairs, leftover_right]
  | cons a t ih =>
    simp only [List.map_cons, List.nodup_cons] at hl
    obtain ⟨ha, ht⟩ := hl
    have hfilter : ∀ x ∈ t,
        r.filter (fun b => sameKey x b) =
          (r.filter (fun b => !(sameKey a b))).filter (fun b => sameKey x b) := by
      intro x hx
      rw [List.filter_filter]
      refine (List.filter_congr ?_).symm
      intro b _
      by_cases hk : sameKey x b = true
      · have h1 : recKey x = recKey b := (sameKey_iff x b).mp hk
        have h2 : sameKey a b = false := by
          rw [← Bool.not_eq_true]
          intro hab
          have h3 : recKey a = recKey b := (sameKey_iff a b).mp hab
          exact ha ((h3.trans h1.symm) ▸ List.mem_map_of_mem recKey hx)
        simp [hk, h2]
      · have hkf : sameKey x b = false := by
          cases hxb : sameKey x b
          · rfl
          · exact absurd hxb hk
        simp [hkf]
    have hcross : cross_pairs t r = cross_pairs t (r.filter (fun b => !(sameKey a b))) :=
      cross_pairs_congr hfilter
    have hleft : leftover_right (a :: t) r =
        leftover_right t (r.filter (fun b => !(sameKey a b))) := by
      simp only [leftover_right, List.filter_filter]
      refine List.filter_congr ?_
      intro b _
      simp only [List.any_cons, Bool.not_or]
      exact Bool.and_comm _ _
    rw [cross_pairs_cons, hcross, hleft, List.map_append, List.map_map]
    have hmap : ((r.filter (fun b => sameKey a b)).map
        ((fun p => p.2) ∘ (fun b => (a, b)))) = r.filter (fun b => sameKey a b) := by
      simp
    have step : ((r.filter (fun b => sameKey a b)) ++
        ((cross_pairs t (r.filter (fun b => !(sameKey a b)))).map Prod.snd ++
          leftover_right t (r.filter (fun b => !(sameKey a b))))).Perm r := by
      refine List.Perm.trans (List.Perm.append_left _ (ih _ ht)) ?_
      exact List.filter_append_perm _ r
    simpa [List.append_assoc, Prod.snd] using step

/-! ## Lemmas about the greedy fuzzy stage -/

theorem find_first_eq_none {test : Rec → Rec → Bool} {a : Rec} {r : List Rec} :
    find_first test a r = none ↔ ∀ b ∈ r, test a b = false := by
  induction r with
  | nil => simp [find_first]
  | cons c t ih =>
    rw [find_first]
    by_cases h : test a c = true
    · simp [h]
    · have hc : test a c = false := by
        cases hv : test a c
        · rfl
        · exact absurd hv h
      cases hf : find_first test a t with
      | some p =>
        constructor
        · intro hcontra
          simp [hc, hf] at hcontra
        · intro hall
          have hn : find_first test a t = none :=
            ih.mpr (fun b hb => hall b (List.mem_cons_of_mem c hb))
          exact Option.noConfusion (hn.symm.trans hf)
      | none =>
        constructor
        · intro _ b hb
          rcases List.mem_cons.mp hb with rfl | hbt
          · exact hc
          · exact ih.mp hf b hbt
        · intro _
          simp [hc, hf]

theorem find_first_eq_some {test : Rec → Rec → Bool} {a b : Rec} {r r' : List Rec} :
    find_first test a r = some (b, r') →
      ∃ r₁ r₂, r = r₁ ++ b :: r₂ ∧ r' = r₁ ++ r₂ ∧ test a b = true ∧
        ∀ x ∈ r₁, test a x = false := by
  induction r generalizing r' with
  | nil => intro h; cases h
  | cons c t ih =>
    intro h
    rw [find_first] at h
    by_cases hc : test a c = true
    · rw [if_pos hc] at h
      obtain ⟨rfl, rfl⟩ : c = b ∧ t = r' := by
        have h2 := Option.some.inj h
        exact ⟨congrArg Prod.fst h2, congrArg Prod.snd h2⟩
      exact ⟨[], t, by simp, by simp, hc, by simp⟩
    · rw [if_neg hc] at h
      cases hf : find_first test a t with
      | none => rw [hf] at h; cases h
      | some p =>
        obtain ⟨c1, rest⟩ := p
        rw [hf] at h
        obtain ⟨rfl, rfl⟩ : c1 = b ∧ c :: rest = r' := by
          have h2 := Option.some.inj h
          exact ⟨congrArg Prod.fst h2, congrArg Prod.snd h2⟩
        obtain ⟨r₁, r₂, ht, hp2, htest, hfalse⟩ := ih hf
        refine ⟨c :: r₁, r₂, by simp [ht], by simp [hp2], htest, ?_⟩
        intro x hx
        rcases List.mem_cons.mp hx with rfl | hx1
        · cases hv : test a x
          · rfl
          · exact absurd hv hc
        · exact hfalse x hx1

theorem find_first_perm {test : Rec → Rec → Bool} {a b : Rec} {r r' : List Rec}
    (h : find_first test a r = some (b, r')) : r.Perm (b :: r') := by
  obtain ⟨r₁, r₂, rfl, rfl, -, -⟩ := find_first_eq_some h
  exact List.perm_middle

theorem greedy_left_perm (test : Rec → Rec → Bool) (L R : List Rec) :
    ((greedy_fuzzy test L R).1.map Prod.fst ++ (greedy_fuzzy test L R).2.1).Perm L := by
  induction L generalizing R with
  | nil => simp [greedy_fuzzy]
  | cons a t ih =>
    rw [greedy_fuzzy]
    cases hf : find_first test a R with
    | some p =>
      obtain ⟨b, r'⟩ := p
      simpa using List.Perm.cons a (ih r')
    | none =>
      simpa using List.perm_middle.trans (List.Perm.cons a (ih R))

theorem greedy_right_perm (test : Rec → Rec → Bool) (L R : List Rec) :
    ((greedy_fuzzy test L R).1.map Prod.snd ++ (greedy_fuzzy test L R).2.2).Perm R := by
  induction L generalizing R with
  | nil => simp [greedy_fuzzy]
  | cons a t ih =>
    rw [greedy_fuzzy]
    cases hf : find_first test a R with
    | some p =>
      obtain ⟨b, r'⟩ := p
      have step : (b :: ((greedy_fuzzy test t r').1.map Prod.snd ++
          (greedy_fuzzy test t r').2.2)).Perm (b :: r') :=
        List.Perm.cons b (ih r')
      simpa using step.trans (find_first_perm hf).symm
    | none =>
      simpa using ih R

theorem greedy_pairs_test {test : Rec → Rec → Bool} {L R : List Rec} {a b : Rec}
    (h : (a, b) ∈ (greedy_fuzzy test L R).1) : test a b = true := by
  induction L generalizing R with
  | nil => simp [greedy_fuzzy] at h
  | cons x t ih =>
    rw [greedy_fuzzy] at h
    cases hf : find_first test x R with
    | some p =>
      obtain ⟨c, r'⟩ := p
      rw [hf] at h
      simp only [List.mem_cons] at h
      rcases h with he | h
      · obtain ⟨rfl, rfl⟩ := Prod.mk.injEq .. ▸ he
        exact (find_first_eq_some hf).choose_spec.choose_spec.2.2.1
      · exact ih h
    | none =>
      rw [hf] at h
      exact ih h

theorem greedy_pairs_mem_left {test : Rec → Rec → Bool} {L R : List Rec} {a b : Rec}
    (h : (a, b) ∈ (greedy_fuzzy test L R).1) : a ∈ L := by
  have := (greedy_left_perm test L R).mem_iff.mp
    (List.mem_append_left _ (List.mem_map_of_mem Prod.fst h))
  exact this

theorem greedy_pairs_mem_right {test : Rec → Rec → Bool} {L R : List Rec} {a b : Rec}
    (h : (a, b) ∈ (greedy_fuzzy test L R).1) : b ∈ R := by
  have := (greedy_right_perm test L R).mem_iff.mp
    (List.mem_append_left _ (List.mem_map_of_mem Prod.snd h))
  exact this

theorem greedy_count_right (test : Rec → Rec → Bool) (L R : List Rec) (b : Rec) :
    ((greedy_fuzzy test L R).1.map Prod.snd).count b ≤ R.count b := by
  have h := (greedy_right_perm test L R).count_eq b
  rw [← h, List.count_append]
  exact Nat.le_add_right _ _

/-! ## Lemmas about collecting records from bucket rows -/

theorem filterMap_rowLeft_pairs (ps : List (Rec × Rec)) :
    ((ps.map (fun p => Row.pair p.1 p.2)).filterMap rowLeft) = ps.map Prod.fst := by
  induction ps with
  | nil => rfl
  | cons p t ih => simp [rowLeft, ih]

theorem filterMap_rowRight_pairs (ps : List (Rec × Rec)) :
    ((ps.map (fun p => Row.pair p.1 p.2)).filterMap rowRight) = ps.map Prod.snd := by
  induction ps with
  | nil => rfl
  | cons p t ih => simp [rowRight, ih]

theorem filterMap_rowLeft_leftOnly (xs : List Rec) :
    ((xs.map Row.leftOnly).filterMap rowLeft) = xs := by
  induction xs with
  | nil => rfl
  | cons x t ih => simp [rowLeft, ih]

theorem filterMap_rowLeft_rightOnly (xs : List Rec) :
    ((xs.map Row.rightOnly).filterMap rowLeft) = [] := by
  induction xs with
  | nil => rfl
  | cons x t ih => simp [rowLeft, ih]

theorem filterMap_rowRight_leftOnly (xs : List Rec) :
    ((xs.map Row.leftOnly).filterMap rowRight) = [] := by
  induction xs with
  | nil => rfl
  | cons x t ih => simp [rowRight, ih]

theorem filterMap_rowRight_rightOnly (xs : List Rec) :
    ((xs.map Row.rightOnly).filterMap rowRight) = xs := by
  induction xs with
  | nil => rfl
  | cons x t ih => simp [rowRight, ih]

/-! ## Claim C8 -/

theorem qMap_some_length {s : String} {l : List Int} (h : qMap s = some l) :
    l.length = 3 := by
  unfold qMap at h
  split_ifs at h <;>
    exact (Option.some.inj h) ▸ rfl

/-- C8: the period derivation maps a quarter selection to its three
(year, month) pairs aligned to an April-start fiscal year — Q1 of fiscal
2024-2025 is April-June 2024, Q4 is January-March 2025 — a full fiscal
year starting Y runs April of Y through March of Y+1 (for every
fiscal-year string, via the parsed start year), the views variant agrees
(with its (month, year) tuples), and a record dated 2024-07-01 is out of
period for the Q1 fiscal-2024 request in both variants. -/
theorem c8_quarter_period_mapping :
    get_target_periods "2024-2025" "Quarterly" "Q1 (Apr-Jun)" =
        [(2024, 4), (2024, 5), (2024, 6)] ∧
    get_target_periods "2024-2025" "Quarterly" "Q2 (Jul-Sep)" =
        [(2024, 7), (2024, 8), (2024, 9)] ∧
    get_target_periods "2024-2025" "Quarterly" "Q3 (Oct-Dec)" =
        [(2024, 10), (2024, 11), (2024, 12)] ∧
    get_target_periods "2024-2025" "Quarterly" "Q4 (Jan-Mar)" =
        [(2025, 1), (2025, 2), (2025, 3)] ∧
    (∀ fy pv : String, get_target_periods fy "Yearly" pv =
      [(parseStartYear fy, 4), (parseStartYear fy, 5), (parseStartYear fy, 6),
       (parseStartYear fy, 7), (parseStartYear fy, 8), (parseStartYear fy, 9),
       (parseStartYear fy, 10), (parseStartYear fy, 11), (parseStartYear fy, 12),
       (parseStartYear fy + 1, 1), (parseStartYear fy + 1, 2),
       (parseStartYear fy + 1, 3)]) ∧
    views_get_target_periods "2024-2025" "Quarterly" "Q1 (Apr-Jun)" =
        some [(4, 2024), (5, 2024), (6, 2024)] ∧
    views_get_target_periods "2024-2025" "Quarterly" "Q4 (Jan-Mar)" =
        some [(1, 2025), (2, 2025), (3, 2025)] ∧
    svc_in_period (get_target_periods "2024-2025" "Quarterly" "Q1 (Apr-Jun)")
        (some (2024, 7)) = false ∧
    views_in_period [(4, 2024), (5, 2024), (6, 2024)] (some (2024, 7)) = false := by
  refine ⟨by decide, by decide, by decide, by decide, ?_, by decide, by decide,
    by decide, by decide⟩
  intro fy pv
  unfold get_target_periods
  rw [if_neg (by decide), if_neg (by decide)]
  rfl

/-! ## Claim C9 -/

/-- C9: after preprocessing, every record's Type value is exactly
`"B2B"` or `"CDNR"`: a value whose trimmed, uppercased form contains one
of the credit/debit-note tokens becomes `"CDNR"`, every other value —
including a missing Type column, modelled by `none` — becomes
`"B2B"`. -/
theorem c9_type_binary :
    (∀ col : List (Option String), ∀ ty ∈ preprocessTypeColumn col,
      ty = "B2B" ∨ ty = "CDNR") ∧
    (∀ t : Option String, preprocessType t = "CDNR" ↔
      containsCdnrPattern (upperStr (trimStr (t.getD "B2B"))) = true) ∧
    (∀ t : Option String, preprocessType t = "B2B" ↔
      containsCdnrPattern (upperStr (trimStr (t.getD "B2B"))) = false) ∧
    preprocessType none = "B2B" := by
  refine ⟨?_, ?_, ?_, by decide⟩
  · intro col ty hty
    obtain ⟨t, -, rfl⟩ := List.mem_map.mp hty
    unfold preprocessType normalizeTypeValue
    by_cases h : containsCdnrPattern (upperStr (trimStr (t.getD "B2B"))) = true
    · right; simp [h]
    · left; simp [h]
  · intro t
    unfold preprocessType normalizeTypeValue
    by_cases h : containsCdnrPattern (upperStr (trimStr (t.getD "B2B"))) = true <;>
      simp [h]
  · intro t
    unfold preprocessType normalizeTypeValue
    by_cases h : containsCdnrPattern (upperStr (trimStr (t.getD "B2B"))) = true <;>
      simp [h]

/-! ## Claim C10 -/

/-- C10: the service period derivation is total and never fails on
malformed input — for every fiscal-year string, period type and period
value it returns a non-empty period list — with the concrete defaults:
an unparsable fiscal-year string falls back to start year 2024, an
unknown month name to April, an unknown quarter label to April-June, and
an unrecognised period type to the whole fiscal year. -/
theorem c10_period_derivation_total :
    (∀ fy pt pv : String, 1 ≤ (get_target_periods fy pt pv).length) ∧
    parseStartYear "garbage" = 2024 ∧
    get_target_periods "garbage" "Monthly" "April" = [(2024, 4)] ∧
    get_target_periods "2024-2025" "Monthly" "NotAMonth" = [(2024, 4)] ∧
    get_target_periods "2024-2025" "Quarterly" "Q9" =
      [(2024, 4), (2024, 5), (2024, 6)] ∧
    get_target_periods "2024-2025" "Weekly" "whatever" =
      [(2024, 4), (2024, 5), (2024, 6), (2024, 7), (2024, 8), (2024, 9), (2024, 10),
       (2024, 11), (2024, 12), (2025, 1), (2025, 2), (2025, 3)] := by
  refine ⟨?_, by decide, by decide, by decide, by decide, by decide⟩
  intro fy pt pv
  unfold get_target_periods
  by_cases hm : pt = "Monthly"
  · simp [hm]
  · rw [if_neg hm]
    by_cases hq : pt = "Quarterly"
    · rw [if_pos hq]
      cases hqm : qMap pv with
      | none => simp
      | some l =>
        have h3 := qMap_some_length hqm
        simp [h3]
    · rw [if_neg hq]
      simp

/-! ## Claim C5 -/

/-- C5 (amended): the fully-reconciled flag of `reconcile_records` is
true exactly when every summary delta has absolute value strictly below
the hard-coded bound 1 — a delta exactly equal to the tolerance makes
the flag false — while the per-record helper
`values_match_within_tolerance` of the views variant uses the non-strict
bound, counting a delta exactly equal to the tolerance as within. -/
theorem c5_reconciled_flag_strict :
    (∀ s1 s3 : GSummary,
      (is_reconciled s1 s3 = true ↔ ∀ v ∈ summary_deltas s1 s3, |v| < 1)) ∧
    (∀ v1 v2 t : ℚ,
      (values_match_within_tolerance v1 v2 t = true ↔ |v1 - v2| ≤ t)) := by
  constructor
  · intro s1 s3
    simp [is_reconciled, List.all_eq_true]
  · intro v1 v2 t
    simp [values_match_within_tolerance]

/-- Summary whose IGST total is exactly 1. -/
def sDeltaOne : GSummary :=
  { total_taxable := 0, igst := 1, cgst := 0, sgst := 0 }

/-- All-zero summary. -/
def sAllZero : GSummary :=
  { total_taxable := 0, igst := 0, cgst := 0, sgst := 0 }

/-- C5 counterexample: the summaries differ by exactly the tolerance (1)
on IGST, so every delta is within the non-strict bound, yet the flag is
false — the claim's non-strict boundary reading is refuted. -/
theorem c5_counterexample :
    summary_deltas sDeltaOne sAllZero = [0, 1, 0, 0] ∧
    (∀ v ∈ summary_deltas sDeltaOne sAllZero, |v| ≤ 1) ∧
    is_reconciled sDeltaOne sAllZero = false := by
  have heval : summary_deltas sDeltaOne sAllZero = [0, 1, 0, 0] := by
    norm_num [summary_deltas, round2, roundHalfEven, sDeltaOne, sAllZero]
  refine ⟨heval, ?_, ?_⟩
  · intro v hv
    rw [heval] at hv
    rcases List.mem_cons.mp hv with rfl | hv
    · norm_num
    rcases List.mem_cons.mp hv with rfl | hv
    · norm_num
    rcases List.mem_cons.mp hv with rfl | hv
    · norm_num
    rcases List.mem_cons.mp hv with rfl | hv
    · norm_num
    · cases hv
  · rw [is_reconciled, heval]
    norm_num

/-! ## Claim C2 -/

/-- C2 (amended): an exact-key pair is classified MATCHED exactly when
the compared deltas are within tolerance, but the service implementation
compares only Taxable and IGST (CGST, SGST and Cess deltas are ignored),
while the views implementation compares Gross, Taxable, IGST, SGST and
CGST. -/
theorem c2_exact_value_check (l r : List Rec) (P : List (Int × Int)) (tol : ℚ)
    (a b : Rec) :
    (Row.pair a b ∈ (svc_recon l r P tol).matched ↔
      ((a, b) ∈ svc_exact_pairs l r P ∧
        |a.taxable - b.taxable| ≤ tol ∧ |a.igst - b.igst| ≤ tol)) ∧
    (Row.pair a b ∈ (views_recon l r P tol).matched ↔
      ((a, b) ∈ views_exact_pairs l r P ∧
        |a.gross - b.gross| ≤ tol ∧ |a.taxable - b.taxable| ≤ tol ∧
        |a.igst - b.igst| ≤ tol ∧ |a.sgst - b.sgst| ≤ tol ∧
        |a.cgst - b.cgst| ≤ tol)) := by
  constructor
  · simp only [svc_recon, List.mem_map, List.mem_filter]
    constructor
    · rintro ⟨p, ⟨hp, hf⟩, he⟩
      obtain ⟨a', b'⟩ := p
      obtain ⟨rfl, rfl⟩ : a' = a ∧ b' = b := by
        simpa [Row.pair.injEq] using he
      refine ⟨hp, ?_⟩
      simpa [svc_val_match, values_match] using hf
    · rintro ⟨hp, h1, h2⟩
      exact ⟨(a, b), ⟨hp, by simp [svc_val_match, values_match, h1, h2]⟩, rfl⟩
  · simp only [views_recon, List.mem_map, List.mem_filter]
    constructor
    · rintro ⟨p, ⟨hp, hf⟩, he⟩
      obtain ⟨a', b'⟩ := p
      obtain ⟨rfl, rfl⟩ : a' = a ∧ b' = b := by
        simpa [Row.pair.injEq] using he
      refine ⟨hp, ?_⟩
      have hc : (((|a'.gross - b'.gross| ≤ tol ∧ |a'.taxable - b'.taxable| ≤ tol) ∧
          |a'.igst - b'.igst| ≤ tol) ∧ |a'.sgst - b'.sgst| ≤ tol) ∧
          |a'.cgst - b'.cgst| ≤ tol := by
        simpa [views_val_match, values_match_within_tolerance] using hf
      exact ⟨hc.1.1.1.1, hc.1.1.1.2, hc.1.1.2, hc.1.2, hc.2⟩
    · rintro ⟨hp, h1, h2, h3, h4, h5⟩
      exact ⟨(a, b),
        ⟨hp, by simp [views_val_match, values_match_within_tolerance, h1, h2, h3, h4, h5]⟩,
        rfl⟩

/-- C2 counterexample: an exact-key pair whose CGST cells differ by 1000
is still classified MATCHED by the service (its value check reads only
Taxable and IGST), refuting the claim that a pair with a tax-component
delta beyond tolerance is never MATCHED. -/
theorem c2_counterexample :
    Row.pair rA rB ∈ (svc_recon [rA] [rB] [(2024, 4)] 1).matched ∧
    |rA.cgst - rB.cgst| > 1 := by
  constructor
  · norm_num [svc_recon, svc_exact_pairs, svc_in_2b, svc_in_books, cross_pairs, sameKey,
      recKey, svc_in_period, svc_val_match, values_match, svc_fuzzy, leftover_left,
      leftover_right, greedy_fuzzy, find_first, svc_fuzzy_test, List.filter_cons, abs_le,
      rA, rB]
  · norm_num [rA, rB]

/-! ## Claim C3 -/

/-- C3 (amended): a fuzzy candidate pair always shares its business key,
but the compared numeric fields are Taxable and IGST only in the service
implementation (a CGST, SGST or Cess difference beyond tolerance does
not block the pairing), and Taxable, IGST, CGST, SGST in the views
implementation. -/
theorem c3_fuzzy_candidate_fields (l r : List Rec) (P : List (Int × Int)) (tol : ℚ)
    (a b : Rec) :
    ((a, b) ∈ svc_fuzzy_pairs l r P tol →
      (a.gstinClean = b.gstinClean ∧
        |a.taxable - b.taxable| ≤ tol ∧ |a.igst - b.igst| ≤ tol)) ∧
    ((a, b) ∈ views_fuzzy_pairs l r P tol →
      (a.gstinClean = b.gstinClean ∧
        |a.taxable - b.taxable| ≤ tol ∧ |a.igst - b.igst| ≤ tol ∧
        |a.cgst - b.cgst| ≤ tol ∧ |a.sgst - b.sgst| ≤ tol)) := by
  constructor
  · intro h
    rw [svc_fuzzy_pairs, svc_fuzzy] at h
    have ht := greedy_pairs_test h
    simp only [svc_fuzzy_test, values_match, Bool.and_eq_true, beq_iff_eq,
      decide_eq_true_eq] at ht
    exact ⟨ht.1.1, ht.1.2, ht.2⟩
  · intro h
    rw [views_fuzzy_pairs, views_fuzzy] at h
    have ht := greedy_pairs_test h
    simp only [views_fuzzy_test, values_match_within_tolerance, Bool.and_eq_true,
      beq_iff_eq, decide_eq_true_eq] at ht
    exact ⟨ht.1.1.1.1, ht.1.1.1.2, ht.1.1.2, ht.1.2, ht.2⟩

/-- C3 witness: the service fuzzy stage pairs the concrete leftovers
`rC` and `rD`, and the theorem yields their shared key and Taxable/IGST
tolerance facts. -/
theorem c3_witness :
    rC.gstinClean = rD.gstinClean ∧ |rC.taxable - rD.taxable| ≤ 1 := by
  have h := (c3_fuzzy_candidate_fields [rC] [rD] [(2024, 4)] 1 rC rD).1 (by
    norm_num [svc_fuzzy_pairs, svc_fuzzy, svc_in_2b, svc_in_books, leftover_left,
      leftover_right, greedy_fuzzy, find_first, svc_fuzzy_test, values_match, sameKey,
      recKey, svc_in_period, List.filter_cons, abs_le, rC, rD])
  exact ⟨h.1, h.2.1⟩

/-- C3 counterexample: two leftovers with equal taxable amounts whose
CGST cells differ by 1000 are still fuzzy-paired by the service,
refuting the claim that a tax-component difference beyond tolerance
blocks fuzzy pairing. -/
theorem c3_counterexample :
    (rC, rD) ∈ svc_fuzzy_pairs [rC] [rD] [(2024, 4)] 1 ∧
    rC.taxable = rD.taxable ∧ |rC.cgst - rD.cgst| > 1 := by
  refine ⟨?_, by norm_num [rC, rD], by norm_num [rC, rD]⟩
  norm_num [svc_fuzzy_pairs, svc_fuzzy, svc_in_2b, svc_in_books, leftover_left,
    leftover_right, greedy_fuzzy, find_first, svc_fuzzy_test, values_match, sameKey,
    recKey, svc_in_period, List.filter_cons, abs_le, rC, rD]

/-! ## Claim C6 -/

/-- C6: in both implementations, every pair emitted by the fuzzy stage
is sub-classified by its gross amounts — within tolerance it lands in
the `invoice_mismatch` bucket, beyond tolerance in the
`mismatch_probable` bucket — and no fuzzy pair ever reaches the
`matched` bucket. -/
theorem c6_fuzzy_subclassification (l r : List Rec) (P : List (Int × Int)) (tol : ℚ)
    (a b : Rec) :
    ((a, b) ∈ svc_fuzzy_pairs l r P tol →
      ((|a.gross - b.gross| ≤ tol →
          Row.pair a b ∈ (svc_recon l r P tol).invoice_mismatch) ∧
        (¬(|a.gross - b.gross| ≤ tol) →
          Row.pair a b ∈ (svc_recon l r P tol).mismatch_probable) ∧
        Row.pair a b ∉ (svc_recon l r P tol).matched)) ∧
    ((a, b) ∈ views_fuzzy_pairs l r P tol →
      ((|a.gross - b.gross| ≤ tol →
          Row.pair a b ∈ (views_recon l r P tol).invoice_mismatch) ∧
        (¬(|a.gross - b.gross| ≤ tol) →
          Row.pair a b ∈ (views_recon l r P tol).mismatch_probable) ∧
        Row.pair a b ∉ (views_recon l r P tol).matched)) := by
  constructor
  · intro h
    refine ⟨?_, ?_, ?_⟩
    · intro hg
      simp only [svc_recon, List.mem_map, List.mem_filter]
      refine ⟨(a, b), ⟨?_, ?_⟩, rfl⟩
      · exact h
      · simp [values_match, hg]
    · intro hg
      simp only [svc_recon, List.mem_append, List.mem_map, List.mem_filter]
      right
      refine ⟨(a, b), ⟨?_, ?_⟩, rfl⟩
      · exact h
      · simp [values_match, hg]
    · intro hm
      simp only [svc_recon, List.mem_map, List.mem_filter] at hm
      obtain ⟨p, ⟨hp, -⟩, he⟩ := hm
      obtain ⟨a', b'⟩ := p
      obtain ⟨ha, hb2⟩ : a' = a ∧ b' = b := by
        simpa [Row.pair.injEq] using he
      rw [ha, hb2] at hp
      have hmem := mem_cross_pairs.mp hp
      have hb : b ∈ svc_in_books r P := hmem.2.1
      have hk : sameKey a b = true := hmem.2.2
      have hL : a ∈ leftover_left (svc_in_2b l P) (svc_in_books r P) := by
        rw [svc_fuzzy_pairs, svc_fuzzy] at h
        exact greedy_pairs_mem_left h
      have := (List.mem_filter.mp hL).2
      simp only [Bool.not_eq_true', List.any_eq_false] at this
      exact absurd hk (by simp [this b hb])
  · intro h
    refine ⟨?_, ?_, ?_⟩
    · intro hg
      simp only [views_recon, List.mem_map, List.mem_filter]
      refine ⟨(a, b), ⟨?_, ?_⟩, rfl⟩
      · exact h
      · simp [values_match_within_tolerance, hg]
    · intro hg
      simp only [views_recon, List.mem_append, List.mem_map, List.mem_filter]
      right
      refine ⟨(a, b), ⟨?_, ?_⟩, rfl⟩
      · exact h
      · simp [values_match_within_tolerance, hg]
    · intro hm
      simp only [views_recon, List.mem_map, List.mem_filter] at hm
      obtain ⟨p, ⟨hp, -⟩, he⟩ := hm
      obtain ⟨a', b'⟩ := p
      obtain ⟨ha, hb2⟩ : a' = a ∧ b' = b := by
        simpa [Row.pair.injEq] using he
      rw [ha, hb2] at hp
      have hmem := mem_cross_pairs.mp hp
      have hb : b ∈ views_in_books r P := hmem.2.1
      have hk : sameKey a b = true := hmem.2.2
      have hL : a ∈ leftover_left (views_in_2b l P) (views_in_books r P) := by
        rw [views_fuzzy_pairs, views_fuzzy] at h
        exact greedy_pairs_mem_left h
      have := (List.mem_filter.mp hL).2
      simp only [Bool.not_eq_true', List.any_eq_false] at this
      exact absurd hk (by simp [this b hb])

/-- C6 witness: the concrete fuzzy pair (rC, rD) has equal gross
amounts, so the theorem puts it in the invoice-mismatch bucket and out
of the matched bucket of the service run. -/
theorem c6_witness :
    Row.pair rC rD ∈ (svc_recon [rC] [rD] [(2024, 4)] 1).invoice_mismatch ∧
    Row.pair rC rD ∉ (svc_recon [rC] [rD] [(2024, 4)] 1).matched := by
  have h := (c6_fuzzy_subclassification [rC] [rD] [(2024, 4)] 1 rC rD).1 (by
    norm_num [svc_fuzzy_pairs, svc_fuzzy, svc_in_2b, svc_in_books, leftover_left,
      leftover_right, greedy_fuzzy, find_first, svc_fuzzy_test, values_match, sameKey,
      recKey, svc_in_period, List.filter_cons, abs_le, rC, rD])
  exact ⟨h.1 (by norm_num [rC, rD]), h.2.2⟩

/-! ## Claim C7 -/

/-- C7: the fuzzy stage is greedy first-fit.  Fuzzy pairs never join
records with different business keys (both variants, whatever the
amounts); a left row with a successful scan is paired with the first
accepted right row — the scanned prefix before it contains no accepted
row — which is then removed from the remaining right rows; a left row
whose scan fails stays unmatched while the right rows are untouched; and
a right row is never claimed more often than it occurs. -/
theorem c7_greedy_first_fit :
    (∀ (l r : List Rec) (P : List (Int × Int)) (tol : ℚ) (a b : Rec),
      (a, b) ∈ svc_fuzzy_pairs l r P tol → a.gstinClean = b.gstinClean) ∧
    (∀ (l r : List Rec) (P : List (Int × Int)) (tol : ℚ) (a b : Rec),
      (a, b) ∈ views_fuzzy_pairs l r P tol → a.gstinClean = b.gstinClean) ∧
    (∀ (test : Rec → Rec → Bool) (a : Rec) (R : List Rec),
      find_first test a R = none ↔ ∀ b ∈ R, test a b = false) ∧
    (∀ (test : Rec → Rec → Bool) (a b : Rec) (R R' : List Rec),
      find_first test a R = some (b, R') →
        ∃ r₁ r₂, R = r₁ ++ b :: r₂ ∧ R' = r₁ ++ r₂ ∧ test a b = true ∧
          ∀ x ∈ r₁, test a x = false) ∧
    (∀ (test : Rec → Rec → Bool) (a b : Rec) (L R R' : List Rec),
      find_first test a R = some (b, R') →
        greedy_fuzzy test (a :: L) R =
          ((a, b) :: (greedy_fuzzy test L R').1, (greedy_fuzzy test L R').2)) ∧
    (∀ (test : Rec → Rec → Bool) (a : Rec) (L R : List Rec),
      find_first test a R = none →
        greedy_fuzzy test (a :: L) R =
          ((greedy_fuzzy test L R).1, a :: (greedy_fuzzy test L R).2.1,
            (greedy_fuzzy test L R).2.2)) ∧
    (∀ (test : Rec → Rec → Bool) (L R : List Rec) (b : Rec),
      ((greedy_fuzzy test L R).1.map Prod.snd).count b ≤ R.count b) := by
  refine ⟨?_, ?_, ?_, ?_, ?_, ?_, ?_⟩
  · intro l r P tol a b h
    rw [svc_fuzzy_pairs, svc_fuzzy] at h
    have ht := greedy_pairs_test h
    simp only [svc_fuzzy_test, Bool.and_eq_true, beq_iff_eq] at ht
    exact ht.1.1
  · intro l r P tol a b h
    rw [views_fuzzy_pairs, views_fuzzy] at h
    have ht := greedy_pairs_test h
    simp only [views_fuzzy_test, Bool.and_eq_true, beq_iff_eq] at ht
    exact ht.1.1.1.1
  · intro test a R
    exact find_first_eq_none
  · intro test a b R R' h
    exact find_first_eq_some h
  · intro test a b L R R' h
    rw [greedy_fuzzy, h]
  · intro test a L R h
    rw [greedy_fuzzy, h]
  · intro test L R b
    exact greedy_count_right test L R b

/-! ## Claim C4 -/

theorem countP_key_filter (r : List Rec) (a : Rec) (k : String × String)
    (hk : recKey a = k) :
    (r.filter (fun b => sameKey a b)).length =
      r.countP (fun b => recKey b == k) := by
  rw [← List.countP_eq_length_filter]
  refine List.countP_congr ?_
  intro b _
  subst hk
  simp only [sameKey, beq_iff_eq]
  exact eq_comm

/-- C4 (amended): the exact-match stage treats duplicated composite keys
as an outer-join cross product, not a FIFO multiset pop: for every key,
the number of emitted pairs is (left occurrence count) times (right
occurrence count) — each left occurrence is paired with every right
occurrence — a left record becomes a leftover exactly when no right
record shares its key and symmetrically for right records, so no record
is dropped and no failure occurs, but duplicate records are paired more
than once. -/
theorem c4_duplicates_cross_product :
    (∀ (l r : List Rec) (k : String × String),
      (cross_pairs l r).countP (fun p => recKey p.1 == k) =
        (l.countP (fun a => recKey a == k)) * (r.countP (fun b => recKey b == k))) ∧
    (∀ (l r : List Rec) (a : Rec),
      (a ∈ leftover_left l r ↔ a ∈ l ∧ ∀ b ∈ r, ¬recKey a = recKey b)) ∧
    (∀ (l r : List Rec) (b : Rec),
      (b ∈ leftover_right l r ↔ b ∈ r ∧ ∀ a ∈ l, ¬recKey a = recKey b)) := by
  refine ⟨?_, ?_, ?_⟩
  · intro l r k
    induction l with
    | nil => simp [cross_pairs]
    | cons a t ih =>
      rw [cross_pairs_cons, List.countP_append, List.countP_cons, ih]
      by_cases hk : recKey a = k
      · have h1 : ((r.filter (fun b => sameKey a b)).map (fun b => (a, b))).countP
            (fun p => recKey p.1 == k) = r.countP (fun b => recKey b == k) := by
          rw [List.countP_map]
          have hcongr : (r.filter (fun b => sameKey a b)).countP
              ((fun (p : Rec × Rec) => recKey p.1 == k) ∘ (fun b => (a, b))) =
              (r.filter (fun b => sameKey a b)).countP (fun _ => true) := by
            refine List.countP_congr ?_
            intro b _
            simp [Function.comp, hk]
          rw [hcongr, List.countP_true, countP_key_filter r a k hk]
        rw [h1]
        have ht : (recKey a == k) = true := by simp [hk]
        rw [ht]
        have hone : (if (true : Bool) = true then 1 else 0) = 1 := by simp
        rw [hone]
        ring
      · have h1 : ((r.filter (fun b => sameKey a b)).map (fun b => (a, b))).countP
            (fun p => recKey p.1 == k) = 0 := by
          rw [List.countP_map, List.countP_eq_zero]
          intro b _
          simp [Function.comp, hk]
        rw [h1]
        have hf : (recKey a == k) = false := by simp [hk]
        simp [hf]
  · intro l r a
    simp only [leftover_left, List.mem_filter, Bool.not_eq_true', List.any_eq_false]
    constructor
    · rintro ⟨h1, h2⟩
      exact ⟨h1, fun b hb => by simpa [sameKey] using h2 b hb⟩
    · rintro ⟨h1, h2⟩
      exact ⟨h1, fun b hb => by simpa [sameKey] using h2 b hb⟩
  · intro l r b
    simp only [leftover_right, List.mem_filter, Bool.not_eq_true', List.any_eq_false]
    constructor
    · rintro ⟨h1, h2⟩
      exact ⟨h1, fun x hx => by simpa [sameKey] using h2 x hx⟩
    · rintro ⟨h1, h2⟩
      exact ⟨h1, fun x hx => by simpa [sameKey] using h2 x hx⟩

/-- Duplicate-key 2B row 1. -/
def dupL1 : Rec :=
  { gstinClean := "G9", invClean := "D1", date := some (2024, 4),
    gross := 11, taxable := 10, igst := 1, cgst := 0, sgst := 0, cess := 0 }

/-- Duplicate-key 2B row 2 (same key as `dupL1`). -/
def dupL2 : Rec :=
  { gstinClean := "G9", invClean := "D1", date := some (2024, 4),
    gross := 22, taxable := 20, igst := 2, cgst := 0, sgst := 0, cess := 0 }

/-- Duplicate-key Books row 1 (same key as `dupL1`). -/
def dupR1 : Rec :=
  { gstinClean := "G9", invClean := "D1", date := some (2024, 4),
    gross := 33, taxable := 30, igst := 3, cgst := 0, sgst := 0, cess := 0 }

/-- Duplicate-key Books row 2 (same key as `dupL1`). -/
def dupR2 : Rec :=
  { gstinClean := "G9", invClean := "D1", date := some (2024, 4),
    gross := 44, taxable := 40, igst := 4, cgst := 0, sgst := 0, cess := 0 }

/-- C4 counterexample: with two occurrences of one key on each side the
exact-match stage emits 4 pairs, not min(2, 2) = 2, and the first left
record is paired twice — the multiset FIFO description is refuted (the
records are not dropped: none is a leftover). -/
theorem c4_counterexample :
    (svc_exact_pairs [dupL1, dupL2] [dupR1, dupR2] [(2024, 4)]).length = 4 ∧
    ((svc_exact_pairs [dupL1, dupL2] [dupR1, dupR2] [(2024, 4)]).countP
      (fun p => p.1 == dupL1)) = 2 ∧
    leftover_left [dupL1, dupL2] [dupR1, dupR2] = [] ∧
    leftover_right [dupL1, dupL2] [dupR1, dupR2] = [] := by decide

/-! ## Claim C1 -/

theorem bucketLefts_assembly (pairs fpairs : List (Rec × Rec)) (vm g : Rec × Rec → Bool)
    (lo rr outL outR : List Rec) :
    bucketLefts
      { matched := (pairs.filter vm).map (fun p => Row.pair p.1 p.2)
        mismatch_probable := ((pairs.filter (fun p => !vm p)).map (fun p => Row.pair p.1 p.2)) ++
          ((fpairs.filter (fun p => !g p)).map (fun p => Row.pair p.1 p.2))
        invoice_mismatch := (fpairs.filter g).map (fun p => Row.pair p.1 p.2)
        only_2b := lo.map Row.leftOnly
        only_books := rr.map Row.rightOnly
        out_of_period := (outR.map Row.rightOnly) ++ (outL.map Row.leftOnly) } =
      (pairs.filter vm).map Prod.fst ++ ((pairs.filter (fun p => !vm p)).map Prod.fst ++
        ((fpairs.filter (fun p => !g p)).map Prod.fst ++ ((fpairs.filter g).map Prod.fst ++
        (lo ++ outL)))) := by
  simp only [bucketLefts, allRows, List.filterMap_append, filterMap_rowLeft_pairs,
    filterMap_rowLeft_leftOnly, filterMap_rowLeft_rightOnly, List.append_assoc,
    List.append_nil, List.nil_append]

theorem bucketRights_assembly (pairs fpairs : List (Rec × Rec)) (vm g : Rec × Rec → Bool)
    (lo rr outL outR : List Rec) :
    bucketRights
      { matched := (pairs.filter vm).map (fun p => Row.pair p.1 p.2)
        mismatch_probable := ((pairs.filter (fun p => !vm p)).map (fun p => Row.pair p.1 p.2)) ++
          ((fpairs.filter (fun p => !g p)).map (fun p => Row.pair p.1 p.2))
        invoice_mismatch := (fpairs.filter g).map (fun p => Row.pair p.1 p.2)
        only_2b := lo.map Row.leftOnly
        only_books := rr.map Row.rightOnly
        out_of_period := (outR.map Row.rightOnly) ++ (outL.map Row.leftOnly) } =
      (pairs.filter vm).map Prod.snd ++ ((pairs.filter (fun p => !vm p)).map Prod.snd ++
        ((fpairs.filter (fun p => !g p)).map Prod.snd ++ ((fpairs.filter g).map Prod.snd ++
        (rr ++ outR)))) := by
  simp only [bucketRights, allRows, List.filterMap_append, filterMap_rowRight_pairs,
    filterMap_rowRight_leftOnly, filterMap_rowRight_rightOnly, List.append_assoc,
    List.append_nil, List.nil_append]

theorem split_chain_parts (pairs fpairs : List (Rec × Rec)) (vm g : Rec × Rec → Bool)
    (proj : Rec × Rec → Rec) (lo LL outL inL l : List Rec)
    (hfz : (fpairs.map proj ++ lo).Perm LL)
    (hcross : (pairs.map proj ++ LL).Perm inL)
    (hperiod : (inL ++ outL).Perm l) :
    ((pairs.filter vm).map proj ++ ((pairs.filter (fun p => !vm p)).map proj ++
      ((fpairs.filter (fun p => !g p)).map proj ++ ((fpairs.filter g).map proj ++
      (lo ++ outL))))).Perm l := by
  have e1 : ((pairs.filter vm).map proj ++ (pairs.filter (fun p => !vm p)).map proj).Perm
      (pairs.map proj) := by
    rw [← List.map_append]
    exact (List.filter_append_perm _ _).map proj
  have e2 : ((fpairs.filter (fun p => !g p)).map proj ++ (fpairs.filter g).map proj).Perm
      (fpairs.map proj) := by
    rw [← List.map_append]
    exact (List.perm_append_comm.trans (List.filter_append_perm g fpairs)).map proj
  have assoc : (pairs.filter vm).map proj ++ ((pairs.filter (fun p => !vm p)).map proj ++
      ((fpairs.filter (fun p => !g p)).map proj ++ ((fpairs.filter g).map proj ++
      (lo ++ outL)))) =
      (((pairs.filter vm).map proj ++ (pairs.filter (fun p => !vm p)).map proj) ++
        (((fpairs.filter (fun p => !g p)).map proj ++ (fpairs.filter g).map proj) ++ lo)) ++
      outL := by
    simp [List.append_assoc]
  rw [assoc]
  refine ((e1.append ((e2.append_right lo).trans hfz)).append (List.Perm.refl outL)).trans ?_
  exact (hcross.append (List.Perm.refl outL)).trans hperiod

/-- C1 (amended): in the views implementation the reconciliation run is
a partition whenever the in-period composite keys are duplicate-free on
each side: the 2B-side records represented across the six buckets are a
permutation of the 2B input, the Books-side records a permutation of the
Books input — so every input record, null/out-of-period dates included,
appears in exactly one bucket — and the total record count across the
buckets equals the total input count.  (The service implementation drops
out-of-period 2B records, and duplicated keys make the outer merge
multiply records: see the counterexample and C4.) -/
theorem c1_views_partition (l r : List Rec) (P : List (Int × Int)) (tol : ℚ)
    (hl : ((views_in_2b l P).map recKey).Nodup)
    (hr : ((views_in_books r P).map recKey).Nodup) :
    (bucketLefts (views_recon l r P tol)).Perm l ∧
    (bucketRights (views_recon l r P tol)).Perm r ∧
    (bucketLefts (views_recon l r P tol)).length +
      (bucketRights (views_recon l r P tol)).length = l.length + r.length := by
  have hrec : views_recon l r P tol =
      { matched := ((views_exact_pairs l r P).filter (views_val_match tol)).map
          (fun p => Row.pair p.1 p.2)
        mismatch_probable :=
          (((views_exact_pairs l r P).filter (fun p => !views_val_match tol p)).map
            (fun p => Row.pair p.1 p.2)) ++
          (((views_fuzzy l r P tol).1.filter
              (fun p => !values_match_within_tolerance p.1.gross p.2.gross tol)).map
            (fun p => Row.pair p.1 p.2))
        invoice_mismatch := ((views_fuzzy l r P tol).1.filter
            (fun p => values_match_within_tolerance p.1.gross p.2.gross tol)).map
          (fun p => Row.pair p.1 p.2)
        only_2b := (views_fuzzy l r P tol).2.1.map Row.leftOnly
        only_books := (views_fuzzy l r P tol).2.2.map Row.rightOnly
        out_of_period := ((r.filter (fun x => !views_in_period P x.date)).map Row.rightOnly) ++
          ((l.filter (fun x => !views_in_period P x.date)).map Row.leftOnly) } := rfl
  have hlefts : (bucketLefts (views_recon l r P tol)).Perm l := by
    rw [hrec, bucketLefts_assembly]
    refine split_chain_parts (views_exact_pairs l r P) ((views_fuzzy l r P tol).1)
      (views_val_match tol)
      (fun p => values_match_within_tolerance p.1.gross p.2.gross tol) Prod.fst
      ((views_fuzzy l r P tol).2.1)
      (leftover_left (views_in_2b l P) (views_in_books r P))
      (l.filter (fun x => !views_in_period P x.date)) (views_in_2b l P) l ?_ ?_ ?_
    · exact greedy_left_perm (views_fuzzy_test tol)
        (leftover_left (views_in_2b l P) (views_in_books r P))
        (leftover_right (views_in_2b l P) (views_in_books r P))
    · exact cross_left_perm (views_in_2b l P) hr
    · simpa [views_in_2b] using
        List.filter_append_perm (fun x => views_in_period P x.date) l
  have hrights : (bucketRights (views_recon l r P tol)).Perm r := by
    rw [hrec, bucketRights_assembly]
    refine split_chain_parts (views_exact_pairs l r P) ((views_fuzzy l r P tol).1)
      (views_val_match tol)
      (fun p => values_match_within_tolerance p.1.gross p.2.gross tol) Prod.snd
      ((views_fuzzy l r P tol).2.2)
      (leftover_right (views_in_2b l P) (views_in_books r P))
      (r.filter (fun x => !views_in_period P x.date)) (views_in_books r P) r ?_ ?_ ?_
    · exact greedy_right_perm (views_fuzzy_test tol)
        (leftover_left (views_in_2b l P) (views_in_books r P))
        (leftover_right (views_in_2b l P) (views_in_books r P))
    · exact cross_right_perm (views_in_books r P) hl
    · simpa [views_in_books] using
        List.filter_append_perm (fun x => views_in_period P x.date) r
  exact ⟨hlefts, hrights, by rw [hlefts.length_eq, hrights.length_eq]⟩

/-- C1 witness: a one-record 2B input exactly matching a one-record
Books input, with duplicate-free keys, is partitioned by the views
implementation. -/
theorem c1_witness :
    (((views_in_2b [rA] [(4, 2024)]).map recKey).Nodup ∧
      ((views_in_books [rB'] [(4, 2024)]).map recKey).Nodup) ∧
    (bucketLefts (views_recon [rA] [rB'] [(4, 2024)] 1)).Perm [rA] ∧
    (bucketRights (views_recon [rA] [rB'] [(4, 2024)] 1)).Perm [rB'] := by
  have h := c1_views_partition [rA] [rB'] [(4, 2024)] 1 (by decide) (by decide)
  exact ⟨⟨by decide, by decide⟩, h.1, h.2.1⟩

/-- C1 counterexample: the service implementation drops an out-of-period
2B record entirely — with a single January-2023 2B record and an empty
Books side, every output bucket (including `out_of_period`) is empty, so
the record appears in no bucket and the counts do not balance. -/
theorem c1_counterexample :
    (svc_recon [rE] [] [(2024, 4)] 1) =
      { matched := [], mismatch_probable := [], invoice_mismatch := [],
        only_2b := [], only_books := [], out_of_period := [] } ∧
    bucketLefts (svc_recon [rE] [] [(2024, 4)] 1) = [] ∧
    bucketRights (svc_recon [rE] [] [(2024, 4)] 1) = [] ∧
    rE.date = some (2023, 1) := by decide
